import Mathlib

/-!
Verification development for the Game Bird hot-plug manager daemon
(source: src/hotplug_manager.py).

The Python source is shallowly embedded below.  External effects
(process table, filesystem reads, subprocess outcomes) are passed in
explicitly as inputs, and effectful operations return both their result
and the list of externally visible actions they perform, so that
ordering and invocation claims can be stated about this program.
-/

namespace GameBird

/-! ## Constants (hotplug_manager.py lines 26-28, 236-244, 414-415, 441-447) -/

def FBCP_CMD : String := "/usr/local/bin/fbcp-ili9341"

def FBCP_ARGS : List String :=
  ["-x", "200", "-y", "120", "-w", "240", "-h", "240", "-noscaling"]

/-- The argv spawned by restart_fbcp and ensure_fbcp_running, and the
vector fbcp_cmdline_matches compares against: [FBCP_CMD] + FBCP_ARGS. -/
def expectedArgv : List String := FBCP_CMD :: FBCP_ARGS

/-- debounce_polls = 3 (line 441). -/
def debounce_polls : Nat := 3

/-- POLL_DELAY = 2 seconds (line 26); timestamps and durations are
modelled in whole seconds as integers. -/
def POLL_DELAY : ℤ := 2

def HDMI_CARD : String := "0"
def HDMI_VOL_ID : String := "1"
def HDMI_SW_ID : String := "2"
def HP_CARD : String := "1"
def HP_VOL_ID : String := "1"
def HP_SW_ID : String := "2"
def DESIRED_VOL : String := "250"

/-! ## Debounce engine and transition side effects (lines 438-502)

The loop body keeps stable : Option Bool (None at startup),
stable_count : Nat and last_state : Option Bool (None until the first
applied transition).  Each poll reads raw = hdmi_connected(); if
raw == stable the streak is incremented, otherwise stable := raw and
the streak resets to 1.  Note that after this update stable always
equals the raw reading just taken, so the updated stable field is
written below as some raw.  When the streak equals debounce_polls and
stable differs from last_state, the side effects fire:
set_audio(stable), toggle_hat(not stable), and - only when
manage_fbcp and last_state is not None - restart_fbcp(); finally
last_state := stable. -/

structure LoopState where
  stable : Option Bool
  stable_count : Nat
  last_state : Option Bool
deriving DecidableEq, Repr

/-- State at entry of the main loop: last_state = None, stable = None,
stable_count = 0 (lines 438-440). -/
def initState : LoopState := ⟨none, 0, none⟩

/-- The externally visible calls made by the debounced-transition block. -/
inductive Action where
  | setAudio (toHdmi : Bool)
  | toggleHat (enable : Bool)
  | restartFbcp
deriving DecidableEq, Repr

/-- One iteration of the debounced-transition block of the main loop
(lines 482-502): the debounce update followed by the gated side
effects.  Returns the updated state and the calls made, in order. -/
def hotplugStep (manage_fbcp : Bool) (s : LoopState) (raw : Bool) :
    LoopState × List Action :=
  let stable : Option Bool := some raw
  let stable_count : Nat :=
    if s.stable = some raw then s.stable_count + 1 else 1
  if stable_count = debounce_polls ∧ stable ≠ s.last_state then
    (⟨stable, stable_count, stable⟩,
      Action.setAudio raw :: Action.toggleHat (!raw) ::
        (if manage_fbcp = true ∧ s.last_state ≠ none then [Action.restartFbcp]
         else []))
  else
    (⟨stable, stable_count, s.last_state⟩, [])

/-- Iterate the debounced-transition block over a list of raw readings. -/
def hotplugRun (manage_fbcp : Bool) (s : LoopState) : List Bool → LoopState
  | [] => s
  | r :: rs => hotplugRun manage_fbcp (hotplugStep manage_fbcp s r).1 rs

/-- For each poll, whether the applied stable state changed at that poll. -/
def firesList (manage_fbcp : Bool) (s : LoopState) : List Bool → List Bool
  | [] => []
  | r :: rs =>
    decide ((hotplugStep manage_fbcp s r).1.last_state ≠ s.last_state) ::
      firesList manage_fbcp (hotplugStep manage_fbcp s r).1 rs

/-! ## Audio router: mixer writes (lines 302-339)

set_audio(to_hdmi) issues four _amixer(card, numid, value) calls in a
fixed order and then swaps the asound configuration files.  The mixer
writes are modelled as the ordered list of (card, numid, value)
triples. -/

structure MixerWrite where
  card : String
  numid : String
  value : String
deriving DecidableEq, Repr

/-- The ordered _amixer calls issued by set_audio (lines 328-338). -/
def set_audio_writes (to_hdmi : Bool) : List MixerWrite :=
  if to_hdmi then
    [⟨HDMI_CARD, HDMI_SW_ID, "1"⟩, ⟨HDMI_CARD, HDMI_VOL_ID, DESIRED_VOL⟩,
     ⟨HP_CARD, HP_SW_ID, "0"⟩, ⟨HP_CARD, HP_VOL_ID, "0"⟩]
  else
    [⟨HP_CARD, HP_SW_ID, "1"⟩, ⟨HP_CARD, HP_VOL_ID, DESIRED_VOL⟩,
     ⟨HDMI_CARD, HDMI_SW_ID, "0"⟩, ⟨HDMI_CARD, HDMI_VOL_ID, "0"⟩]

/-- Commanded state of one device's mute switch after a sequence of
mixer writes: a write of value "0" to the device's switch control
commands it muted, any other value commands it on; writes to other
controls leave it unchanged.  init is the commanded state before the
routing operation. -/
def switchAfter (card numid : String) (init : Bool) (ws : List MixerWrite) :
    Bool :=
  ws.foldl
    (fun cur w =>
      if w.card = card ∧ w.numid = numid then w.value ≠ "0" else cur)
    init

/-! ## Mixer write retry loop (lines 302-325)

_amixer(card, numid, value) loops for _ in range(3): issue the cset
write, read the control back with cget; a timeout or generic error
sleeps and retries, FileNotFoundError returns at once; otherwise the
readback is checked - for a digit value success is values=<value>
appearing in the readback, for a symbolic value it is [<value>]
appearing - and on success the function returns, else the next attempt
runs.  Each attempt's external outcome is an input. -/

inductive AmixerOutcome where
  | timeout
  | notFound
  | otherError
  | readback (out : String)
deriving DecidableEq, Repr

/-- Python str.isdigit for ASCII content: nonempty and all digits. -/
def pyIsdigit (s : String) : Bool :=
  !s.toList.isEmpty && s.toList.all Char.isDigit

/-- Python substring test: pattern in out. -/
def containsSub (pattern out : String) : Bool :=
  decide (pattern.toList <:+: out.toList)

/-- The readback acceptance test of _amixer (lines 319-324). -/
def amixerMatches (value out : String) : Bool :=
  if pyIsdigit value then containsSub ("values=" ++ value) out
  else containsSub ("[" ++ value ++ "]") out

inductive AmixerResult where
  | success (attempt : Nat)
  | abortedNotFound (attempt : Nat)
  | exhausted
deriving DecidableEq, Repr

/-- The retry loop of _amixer over the (at most three) attempt
outcomes; attempt indices are 0-based. -/
def amixerGo (value : String) : List AmixerOutcome → Nat → AmixerResult
  | [], _ => .exhausted
  | o :: rest, i =>
    match o with
    | .timeout => amixerGo value rest (i + 1)
    | .otherError => amixerGo value rest (i + 1)
    | .notFound => .abortedNotFound i
    | .readback out =>
      if amixerMatches value out then .success i
      else amixerGo value rest (i + 1)

/-- _amixer with the outcomes of its three possible attempts supplied
as inputs (for _ in range(3) makes exactly three list elements). -/
def _amixer (value : String) (o0 o1 o2 : AmixerOutcome) : AmixerResult :=
  amixerGo value [o0, o1, o2] 0

/-! ## Process supervisor: restart_fbcp (lines 359-402)

The process table is modelled as the list of processes whose base name
matches fbcp-ili9341 (the ones pidof enumerates), each with its pid
and argv.  enumOk says whether the pidof invocation succeeds; on a
CalledProcessError / timeout / absence / other error the code sets
pids = [].  The response of a signalled process to SIGTERM is an input
termDelay : pid -> Option Nat; some d means the process is gone from
/proc from wait-poll d onward (the wait loop polls at indices 0..9,
100 ms apart, so d <= 9 means it exits inside the 1-second window),
none means it never exits on its own.  SIGKILL removes a process
unconditionally. -/

structure Proc where
  pid : Nat
  argv : List String
deriving DecidableEq, Repr

/-- The externally visible steps of restart_fbcp, in program order. -/
inductive RestartEvent where
  | stopEarly
  | sigterm (pid : Nat)
  | sigkill (pid : Nat)
  | spawn (argv : List String)
deriving DecidableEq, Repr

/-- The pids found alive at wait-poll number poll (0-based), i.e. the
list comprehension alive = [pid for pid in pids if /proc/pid exists]
of line 387. -/
def waitAlive (pids : List Nat) (termDelay : Nat → Option Nat) (poll : Nat) :
    List Nat :=
  pids.filter fun pid =>
    match termDelay pid with
    | none => true
    | some d => decide (poll < d)

/-- Whether the for-loop of lines 386-390 breaks early: some poll in
range(10) observes no survivor. -/
def waitBroke (pids : List Nat) (termDelay : Nat → Option Nat) : Bool :=
  (List.range 10).any fun p => (waitAlive pids termDelay p).isEmpty

/-- The pids the for/else branch force-kills (lines 391-397): none if
the wait loop broke early, otherwise the pids still alive at the last
wait poll (index 9). -/
def killTargets (pids : List Nat) (termDelay : Nat → Option Nat) :
    List Nat :=
  if waitBroke pids termDelay then [] else waitAlive pids termDelay 9

/-- Whether a given pid is out of the process table when restart_fbcp
returns: it must have been signalled, and then it either received
SIGKILL or exited on its own inside the 1-second wait window. -/
def deadAtEnd (pids kills : List Nat) (termDelay : Nat → Option Nat)
    (pid : Nat) : Bool :=
  pids.contains pid &&
    (kills.contains pid ||
      (match termDelay pid with
       | none => false
       | some d => decide (d ≤ 9)))

/-- restart_fbcp (lines 359-402): stop the early-boot unit, enumerate
pids (empty on enumeration failure), SIGTERM each, wait up to 1 s,
force-kill the survivors of the full wait, then spawn a fresh
instance with the expected argv.  Returns the events in program order
and the resulting process table; freshPid is the pid the OS assigns
to the spawned instance. -/
def restart_fbcp (table : List Proc) (enumOk : Bool)
    (termDelay : Nat → Option Nat) (freshPid : Nat) :
    List RestartEvent × List Proc :=
  let pids := if enumOk then table.map Proc.pid else []
  let kills := killTargets pids termDelay
  (RestartEvent.stopEarly ::
     (pids.map RestartEvent.sigterm ++ kills.map RestartEvent.sigkill ++
       [RestartEvent.spawn expectedArgv]),
   (table.filter fun p => !deadAtEnd pids kills termDelay p.pid) ++
     [⟨freshPid, expectedArgv⟩])

/-! ## External-manager coexistence (lines 413-415, 446-447, 457-475)

State read and mutated by the externally-managed recovery block of the
main loop.  Its inputs each iteration: the current monotonic time and
the two fbcp_running() observations (before the systemctl start
attempt and after it). -/

def external_start_failure_threshold : Nat := 6

def fbcp_service_attempt_sec : ℤ := 10

structure SupState where
  manage_fbcp : Bool
  external_start_failures : Nat
  last_fbcp_service_attempt : ℤ
deriving DecidableEq, Repr

structure SupInput where
  now : ℤ
  runningBefore : Bool
  runningAfter : Bool
deriving DecidableEq, Repr

/-- One iteration of the recovery block (lines 457-475): when not
self-managed, fbcp is down and the 10-second cooldown has elapsed,
record the attempt time, ask systemd to start the unit, and then
either reset the failure counter (fbcp observed running) or increment
it, switching permanently to self-managed management when the counter
reaches the threshold.  The returned Bool reports whether an
external-start attempt was made this iteration. -/
def supStep (s : SupState) (i : SupInput) : SupState × Bool :=
  if s.manage_fbcp = false ∧ i.runningBefore = false ∧
      fbcp_service_attempt_sec ≤ i.now - s.last_fbcp_service_attempt then
    let s1 : SupState := { s with last_fbcp_service_attempt := i.now }
    if i.runningAfter then
      ({ s1 with external_start_failures := 0 }, true)
    else
      let f := s1.external_start_failures + 1
      if external_start_failure_threshold ≤ f then
        ({ s1 with external_start_failures := f, manage_fbcp := true }, true)
      else
        ({ s1 with external_start_failures := f }, true)
  else
    (s, false)

/-- Iterate the recovery block over successive loop iterations. -/
def supRun (s : SupState) : List SupInput → SupState
  | [] => s
  | i :: rest => supRun (supStep s i).1 rest

/-- The times at which external-start attempts are made along a run. -/
def attemptTimes (s : SupState) : List SupInput → List ℤ
  | [] => []
  | i :: rest =>
    (if (supStep s i).2 then [i.now] else []) ++
      attemptTimes (supStep s i).1 rest

/-! ## Main-loop exception boundary (lines 449-507)

Python's except Exception catches exactly the instances of the
Exception class; SystemExit (raised by the signal handlers) derives
from BaseException directly and escapes the handler.  The class
hierarchy of the exception types this program can meet is embedded
with its superclass chains. -/

inductive ExcClass where
  | baseException
  | exception
  | systemExit
  | keyboardInterrupt
  | runtimeError
  | osError
  | fileNotFoundError
  | timeoutExpired
  | calledProcessError
deriving DecidableEq, Repr

def pySuperclass : ExcClass → Option ExcClass
  | .baseException => none
  | .exception => some .baseException
  | .systemExit => some .baseException
  | .keyboardInterrupt => some .baseException
  | .runtimeError => some .exception
  | .osError => some .exception
  | .fileNotFoundError => some .osError
  | .timeoutExpired => some .exception
  | .calledProcessError => some .exception

/-- Walk the superclass chain (fuel bounds the chain length, which is
at most 3 in this hierarchy). -/
def isSubclassAux : Nat → ExcClass → ExcClass → Bool
  | 0, _, _ => false
  | fuel + 1, c, target =>
    c == target ||
      (match pySuperclass c with
       | none => false
       | some p => isSubclassAux fuel p target)

/-- Python isinstance on exception classes. -/
def isSubclass (c target : ExcClass) : Bool := isSubclassAux 8 c target

inductive IterOutcome where
  | resume (loggedTraceback : Bool) (sleepBeforeNext : ℤ)
  | terminated (exc : ExcClass)
deriving DecidableEq, Repr

/-- One pass of the while True loop (lines 449-507): the body either
completes (bodyExc = none) or raises; except Exception catches the
instances of Exception, logs the traceback and sleeps 1 s, after
which the normal end-of-iteration POLL_DELAY sleep runs and the loop
resumes; anything else propagates and terminates the loop. -/
def mainLoopIter (bodyExc : Option ExcClass) : IterOutcome :=
  match bodyExc with
  | none => .resume false POLL_DELAY
  | some c =>
    if isSubclass c .exception then .resume true (1 + POLL_DELAY)
    else .terminated c

/-- Run the loop over the per-iteration body results; returns the
first uncaught exception, or none if the loop is still running. -/
def mainLoopRun : List (Option ExcClass) → Option ExcClass
  | [] => none
  | b :: rest =>
    match mainLoopIter b with
    | .resume _ _ => mainLoopRun rest
    | .terminated c => some c

/-! ## HDMI detection (lines 198-230)

The filesystem surface: the per-connector status files matched by
glob("/sys/class/drm/card*-HDMI-A-*/status"), each with the result of
read_text (none when reading raises), and the outcome of the
tvservice invocation of the legacy backend. -/

inductive TvOutcome where
  | timeout
  | notFound
  | ran (returncode : Int) (outSize : Nat)
deriving DecidableEq, Repr

structure DrmSys where
  statusFiles : List (String × Option String)
  tvservice : TvOutcome
deriving Repr

inductive ProbeEvent where
  | runTvservice
deriving DecidableEq, Repr

/-- Python str.strip: drop leading and trailing whitespace (result as
a character list). -/
def pyStrip (s : String) : List Char :=
  ((s.toList.dropWhile Char.isWhitespace).reverse.dropWhile
      Char.isWhitespace).reverse

/-- _kms_edid_present (lines 198-207): true iff some status file reads
back, after strip, the literal "connected"; read errors are skipped. -/
def _kms_edid_present (sys : DrmSys) : Bool :=
  sys.statusFiles.any fun f =>
    match f.2 with
    | some content => pyStrip content == "connected".toList
    | none => false

/-- _legacy_edid_present (lines 210-223): run tvservice -d into a temp
file; true iff it exits 0 and the file is at least 128 bytes; a
timeout returns false at once; an absent binary falls through to
false.  The invocation itself is recorded as an event. -/
def _legacy_edid_present (sys : DrmSys) : Bool × List ProbeEvent :=
  (match sys.tvservice with
   | .timeout => false
   | .notFound => false
   | .ran rc size => rc == 0 && decide (128 ≤ size),
   [ProbeEvent.runTvservice])

/-- hdmi_connected (lines 226-230): if any status files exist, use the
KMS backend (which never runs tvservice); only when none exist fall
through to the legacy backend. -/
def hdmi_connected (sys : DrmSys) : Bool × List ProbeEvent :=
  if sys.statusFiles ≠ [] then (_kms_edid_present sys, [])
  else _legacy_edid_present sys

/-! ## Singleton lock (lines 37-55)

The lock file is modelled by its current text content and by whether
another process holds the advisory flock on it.  open(LOCK_FILE, "w")
truncates the file at open time, before flock is attempted; flock
then fails iff another instance holds the lock. -/

structure LockFile where
  content : String
  heldByOther : Bool
deriving DecidableEq, Repr

/-- _acquire_lock (lines 37-50): open in "w" mode (truncating), try a
non-blocking exclusive flock; on success write this pid, on failure
close the descriptor and report failure. -/
def _acquire_lock (f : LockFile) (pid : Nat) : LockFile × Bool :=
  let f1 : LockFile := { f with content := "" }
  if f1.heldByOther then (f1, false)
  else ({ f1 with content := toString pid }, true)

/-- The module-level guard (lines 53-55): a failed acquisition prints
a notice and exits with status 0 (some 0); success continues
(none). -/
def second_instance (f : LockFile) (pid : Nat) : LockFile × Option Nat :=
  let r := _acquire_lock f pid
  if r.2 = false then (r.1, some 0) else (r.1, none)

/-! ## Helper lemmas -/

theorem hotplugStep_stable (m : Bool) (s : LoopState) (r : Bool) :
    ((hotplugStep m s r).1).stable = some r := by
  simp only [hotplugStep]
  split <;> split <;> rfl

theorem hotplugStep_count (m : Bool) (s : LoopState) (r : Bool) :
    ((hotplugStep m s r).1).stable_count =
      if s.stable = some r then s.stable_count + 1 else 1 := by
  simp only [hotplugStep]
  split <;> split <;> rfl

theorem hotplugStep_last (m : Bool) (s : LoopState) (r : Bool) :
    ((hotplugStep m s r).1).last_state =
      if (if s.stable = some r then s.stable_count + 1 else 1) =
            debounce_polls ∧ (some r : Option Bool) ≠ s.last_state then
        some r
      else s.last_state := by
  simp only [hotplugStep]
  split <;> split <;> rfl

theorem hotplugStep_actions (m : Bool) (s : LoopState) (r : Bool) :
    (hotplugStep m s r).2 =
      if (if s.stable = some r then s.stable_count + 1 else 1) =
            debounce_polls ∧ (some r : Option Bool) ≠ s.last_state then
        Action.setAudio r :: Action.toggleHat (!r) ::
          (if m = true ∧ s.last_state ≠ none then [Action.restartFbcp]
           else [])
      else [] := by
  simp only [hotplugStep]
  split <;> split <;> rfl

theorem hotplugStep_fires_iff (m : Bool) (s : LoopState) (r : Bool) :
    ((hotplugStep m s r).1).last_state ≠ s.last_state ↔
      (if s.stable = some r then s.stable_count + 1 else 1) =
          debounce_polls ∧ (some r : Option Bool) ≠ s.last_state := by
  rw [hotplugStep_last]
  constructor
  · intro h
    by_contra hc
    rw [if_neg hc] at h
    exact h rfl
  · intro h
    rw [if_pos h]
    exact h.2

theorem hotplugRun_append (m : Bool) (s : LoopState) (pre : List Bool)
    (r : Bool) :
    hotplugRun m s (pre ++ [r]) = (hotplugStep m (hotplugRun m s pre) r).1 := by
  induction pre generalizing s with
  | nil => rfl
  | cons x xs ih => exact ih (hotplugStep m s x).1

/-- The streak counter of the debounce engine counts a suffix of
identical raw readings: whenever the streak is c and stable = some b,
the last c readings processed all were b. -/
def streakInv (pre : List Bool) (s : LoopState) : Prop :=
  s.stable_count ≤ pre.length ∧
    ∀ b, s.stable = some b →
      pre.reverse.take s.stable_count = List.replicate s.stable_count b

theorem streakInv_step (m : Bool) (pre : List Bool) (s : LoopState) (r : Bool)
    (h : streakInv pre s) : streakInv (pre ++ [r]) (hotplugStep m s r).1 := by
  obtain ⟨hlen, hrep⟩ := h
  have hrev : (pre ++ [r]).reverse = r :: pre.reverse := by
    simp
  constructor
  · rw [hotplugStep_count]
    split
    · simpa using Nat.succ_le_succ hlen
    · simp
  · intro b hb
    rw [hotplugStep_stable] at hb
    injection hb with hb
    subst hb
    rw [hotplugStep_count, hrev]
    by_cases hc : s.stable = some r
    · rw [if_pos hc, List.take_succ_cons, hrep r hc, List.replicate_succ]
    · rw [if_neg hc]
      rfl

theorem streakInv_run (m : Bool) (pre : List Bool) :
    streakInv pre (hotplugRun m initState pre) := by
  induction pre using List.reverseRecOn with
  | nil =>
    refine ⟨by simp [hotplugRun, initState], ?_⟩
    intro b hb
    simp [hotplugRun, initState] at hb
  | append_singleton pre r ih =>
    rw [hotplugRun_append]
    exact streakInv_step m pre _ r ih

/-- C1: for every sequence of raw readings fed to the debounce engine
(threshold 3), the applied stable state last_state changes only at a
poll where the last 3 raw readings are identical and their common
value differs from the previously applied stable value; and on the
raw sequence [false, false, true, true, true, false] exactly one
applied transition fires, to true, after the third true, with no
applied transition to false before the sequence ends. -/
theorem C1_applied_transition_needs_three_identical_raws :
    (∀ (pre : List Bool) (r : Bool),
        ((hotplugStep true (hotplugRun true initState pre) r).1).last_state ≠
            (hotplugRun true initState pre).last_state →
          (pre ++ [r]).reverse.take debounce_polls = [r, r, r] ∧
            (some r : Option Bool) ≠ (hotplugRun true initState pre).last_state ∧
            ((hotplugStep true (hotplugRun true initState pre) r).1).last_state =
              some r) ∧
      firesList true initState [false, false, true, true, true, false] =
          [false, false, false, false, true, false] ∧
        (hotplugRun true initState
              [false, false, true, true, true, false]).last_state =
          some true := by
  refine ⟨?_, by decide, by decide⟩
  intro pre r hfire
  have hinv := streakInv_run true pre
  rw [hotplugStep_fires_iff] at hfire
  obtain ⟨hcnt, hne⟩ := hfire
  by_cases hc : (hotplugRun true initState pre).stable = some r
  · rw [if_pos hc] at hcnt
    have hc2 : (hotplugRun true initState pre).stable_count = 2 := by
      have : (hotplugRun true initState pre).stable_count + 1 = 3 := hcnt
      omega
    have htake := hinv.2 r hc
    rw [hc2] at htake
    refine ⟨?_, hne, ?_⟩
    · have hrev : (pre ++ [r]).reverse = r :: pre.reverse := by simp
      rw [hrev]
      show (r :: pre.reverse).take 3 = [r, r, r]
      rw [List.take_succ_cons, htake]
      rfl
    · rw [hotplugStep_last, if_pos ⟨by rw [if_pos hc]; exact hcnt, hne⟩]
  · rw [if_neg hc] at hcnt
    exact absurd hcnt (by decide)

theorem C1_witness :
    ([true, true] ++ [true]).reverse.take debounce_polls =
        [true, true, true] ∧
      (some true : Option Bool) ≠
          (hotplugRun true initState [true, true]).last_state ∧
        ((hotplugStep true (hotplugRun true initState [true, true])
                true).1).last_state =
          some true :=
  C1_applied_transition_needs_three_identical_raws.1 [true, true] true
    (by decide)

/-- C4: on every applied debounced transition the loop calls
set_audio with the new stable state (whose mixer writes target the
HDMI device when connected and the headphone device when
disconnected) and toggle_hat with the opposite value, and calls
restart_fbcp only in self-managed mode and only when a stable value
had already been applied before (on the very first applied stable
reading the restart is skipped). -/
theorem C4_transition_side_effect_wiring (m : Bool) (s : LoopState) (r : Bool)
    (hfire : ((hotplugStep m s r).1).last_state ≠ s.last_state) :
    (hotplugStep m s r).2 =
        Action.setAudio r :: Action.toggleHat (!r) ::
          (if m = true ∧ s.last_state ≠ none then [Action.restartFbcp]
           else []) ∧
      (set_audio_writes r).take 2 =
          (if r then
            [⟨HDMI_CARD, HDMI_SW_ID, "1"⟩,
             ⟨HDMI_CARD, HDMI_VOL_ID, DESIRED_VOL⟩]
          else
            [⟨HP_CARD, HP_SW_ID, "1"⟩, ⟨HP_CARD, HP_VOL_ID, DESIRED_VOL⟩]) ∧
        (Action.restartFbcp ∈ (hotplugStep m s r).2 ↔
            m = true ∧ s.last_state ≠ none) ∧
          (s.last_state = none → Action.restartFbcp ∉ (hotplugStep m s r).2) := by
  have hcond := (hotplugStep_fires_iff m s r).mp hfire
  rw [hotplugStep_actions, if_pos hcond]
  refine ⟨rfl, by cases r <;> rfl, ?_, ?_⟩
  · by_cases hm : m = true ∧ s.last_state ≠ none
    · simp [hm]
    · simp [hm]
  · intro hnone
    have hm : ¬(m = true ∧ s.last_state ≠ none) := by simp [hnone]
    simp [hm]

theorem C4_witness :
    (hotplugStep true ⟨some true, 2, some false⟩ true).2 =
        Action.setAudio true :: Action.toggleHat (!true) ::
          (if true = true ∧ (⟨some true, 2, some false⟩ : LoopState).last_state ≠ none
           then [Action.restartFbcp] else []) ∧
      (set_audio_writes true).take 2 =
          (if true then
            [⟨HDMI_CARD, HDMI_SW_ID, "1"⟩,
             ⟨HDMI_CARD, HDMI_VOL_ID, DESIRED_VOL⟩]
          else
            [⟨HP_CARD, HP_SW_ID, "1"⟩, ⟨HP_CARD, HP_VOL_ID, DESIRED_VOL⟩]) ∧
        (Action.restartFbcp ∈ (hotplugStep true ⟨some true, 2, some false⟩ true).2 ↔
            true = true ∧ (⟨some true, 2, some false⟩ : LoopState).last_state ≠ none) ∧
          ((⟨some true, 2, some false⟩ : LoopState).last_state = none →
            Action.restartFbcp ∉ (hotplugStep true ⟨some true, 2, some false⟩ true).2) :=
  C4_transition_side_effect_wiring true ⟨some true, 2, some false⟩ true (by decide)

/-- C10: set_audio issues the writes that unmute and set the volume
of the target profile's device before the writes that mute and zero
the other profile's device, so as long as at least one device was
commanded on when routing starts, at no intermediate point have both
devices been commanded muted. -/
theorem C10_unmute_target_before_muting_other (b initHdmi initHp : Bool)
    (h : initHdmi = true ∨ initHp = true) :
    (set_audio_writes b =
        (if b then
          [⟨HDMI_CARD, HDMI_SW_ID, "1"⟩, ⟨HDMI_CARD, HDMI_VOL_ID, DESIRED_VOL⟩]
         else
          [⟨HP_CARD, HP_SW_ID, "1"⟩, ⟨HP_CARD, HP_VOL_ID, DESIRED_VOL⟩]) ++
          (if b then [⟨HP_CARD, HP_SW_ID, "0"⟩, ⟨HP_CARD, HP_VOL_ID, "0"⟩]
           else
            [⟨HDMI_CARD, HDMI_SW_ID, "0"⟩, ⟨HDMI_CARD, HDMI_VOL_ID, "0"⟩])) ∧
      ∀ n : Nat,
        switchAfter HDMI_CARD HDMI_SW_ID initHdmi
              ((set_audio_writes b).take n) = true ∨
          switchAfter HP_CARD HP_SW_ID initHp
              ((set_audio_writes b).take n) = true := by
  refine ⟨by cases b <;> rfl, ?_⟩
  intro n
  cases b
  · match n with
    | 0 => exact h
    | 1 => exact Or.inr rfl
    | 2 => exact Or.inr rfl
    | 3 => exact Or.inr rfl
    | k + 4 =>
      have hl : (set_audio_writes false).take (k + 4) = set_audio_writes false :=
        List.take_of_length_le (by simp [set_audio_writes])
      rw [hl]
      exact Or.inr rfl
  · match n with
    | 0 => exact h
    | 1 => exact Or.inl rfl
    | 2 => exact Or.inl rfl
    | 3 => exact Or.inl rfl
    | k + 4 =>
      have hl : (set_audio_writes true).take (k + 4) = set_audio_writes true :=
        List.take_of_length_le (by simp [set_audio_writes])
      rw [hl]
      exact Or.inl rfl

theorem C10_witness :
    switchAfter HDMI_CARD HDMI_SW_ID true ((set_audio_writes true).take 3) =
        true ∨
      switchAfter HP_CARD HP_SW_ID false ((set_audio_writes true).take 3) =
        true :=
  (C10_unmute_target_before_muting_other true true false (Or.inl rfl)).2 3

theorem amixerGo_success_characterization (value : String)
    (outs : List AmixerOutcome) :
    ∀ start i : Nat, amixerGo value outs start = AmixerResult.success i →
      ∃ j, i = start + j ∧ j < outs.length ∧
        ∃ out, outs[j]? = some (AmixerOutcome.readback out) ∧
          amixerMatches value out = true := by
  induction outs with
  | nil => intro start i h; exact absurd h (by simp [amixerGo])
  | cons o rest ih =>
    intro start i h
    cases o with
    | timeout =>
      obtain ⟨j, hj, hlen, out, hget, hm⟩ := ih (start + 1) i h
      exact ⟨j + 1, by omega, by simpa using Nat.succ_lt_succ hlen, out,
        by simpa using hget, hm⟩
    | otherError =>
      obtain ⟨j, hj, hlen, out, hget, hm⟩ := ih (start + 1) i h
      exact ⟨j + 1, by omega, by simpa using Nat.succ_lt_succ hlen, out,
        by simpa using hget, hm⟩
    | notFound => simp [amixerGo] at h
    | readback out =>
      simp only [amixerGo] at h
      split at h
      · injection h with h
        subst h
        exact ⟨0, by omega, by simp, out, by simp, by assumption⟩
      · obtain ⟨j, hj, hlen, out2, hget, hm⟩ := ih (start + 1) i h
        exact ⟨j + 1, by omega, by simpa using Nat.succ_lt_succ hlen, out2,
          by simpa using hget, hm⟩

/-- C9: _amixer performs at most 3 write-then-readback attempts and
declares success exactly at an attempt whose readback matches the
intended value (digit values by the values=<value> pattern, symbolic
values by [<value>] containment); in particular a write of "1" whose
readback contains values=1 succeeds at the first attempt, whatever
the remaining attempts would have produced. -/
theorem C9_amixer_retry_and_success (value : String)
    (o0 o1 o2 : AmixerOutcome) (i : Nat)
    (h : _amixer value o0 o1 o2 = AmixerResult.success i) :
    (i < 3 ∧
        ∃ out, [o0, o1, o2][i]? = some (AmixerOutcome.readback out) ∧
          amixerMatches value out = true) ∧
      ∀ out p1 p2, containsSub "values=1" out = true →
        _amixer "1" (AmixerOutcome.readback out) p1 p2 =
          AmixerResult.success 0 := by
  constructor
  · obtain ⟨j, hj, hlen, out, hget, hm⟩ :=
      amixerGo_success_characterization value [o0, o1, o2] 0 i h
    have hij : i = j := by omega
    subst hij
    exact ⟨by simpa using hlen, out, hget, hm⟩
  · intro out p1 p2 hc
    have hm : amixerMatches "1" out = true := by
      unfold amixerMatches
      have hd : pyIsdigit "1" = true := rfl
      rw [if_pos hd]
      exact hc
    show amixerGo "1" [AmixerOutcome.readback out, p1, p2] 0 =
      AmixerResult.success 0
    simp [amixerGo, hm]

theorem C9_witness :
    _amixer "1" (AmixerOutcome.readback "type=BOOLEAN,values=1")
        AmixerOutcome.timeout AmixerOutcome.timeout =
      AmixerResult.success 0 :=
  (C9_amixer_retry_and_success "1"
      (AmixerOutcome.readback "type=BOOLEAN,values=1") AmixerOutcome.timeout
      AmixerOutcome.timeout 0 (by decide)).2 "type=BOOLEAN,values=1"
    AmixerOutcome.timeout AmixerOutcome.timeout (by decide)

theorem mem_waitAlive (pids : List Nat) (termDelay : Nat → Option Nat)
    (pid : Nat) (q : Nat) (hmem : pid ∈ pids)
    (hd : termDelay pid = none ∨ ∃ d, termDelay pid = some d ∧ q < d) :
    pid ∈ waitAlive pids termDelay q := by
  refine List.mem_filter.mpr ⟨hmem, ?_⟩
  rcases hd with hd | ⟨d, hd, hq⟩
  · simp [hd]
  · simp [hd, hq]

theorem waitBroke_eq_false (pids : List Nat) (termDelay : Nat → Option Nat)
    (h : ∀ q, q < 10 → waitAlive pids termDelay q ≠ []) :
    waitBroke pids termDelay = false := by
  unfold waitBroke
  rw [List.any_eq_false]
  intro q hq
  rw [List.mem_range] at hq
  simpa [List.isEmpty_iff] using h q hq

theorem mem_killTargets (pids : List Nat) (termDelay : Nat → Option Nat)
    (pid : Nat)
    (h : ∀ q, q < 10 → pid ∈ waitAlive pids termDelay q) :
    pid ∈ killTargets pids termDelay := by
  have hbroke : waitBroke pids termDelay = false :=
    waitBroke_eq_false pids termDelay fun q hq =>
      List.ne_nil_of_mem (h q hq)
  unfold killTargets
  rw [if_neg (by simp [hbroke])]
  exact h 9 (by omega)

theorem deadAtEnd_of_mem (pids : List Nat) (termDelay : Nat → Option Nat)
    (pid : Nat) (hmem : pid ∈ pids) :
    deadAtEnd pids (killTargets pids termDelay) termDelay pid = true := by
  unfold deadAtEnd
  rw [Bool.and_eq_true, Bool.or_eq_true]
  refine ⟨by simpa using hmem, ?_⟩
  cases hd : termDelay pid with
  | none =>
    left
    have : pid ∈ killTargets pids termDelay :=
      mem_killTargets pids termDelay pid fun q _ =>
        mem_waitAlive pids termDelay pid q hmem (Or.inl hd)
    simpa using this
  | some d =>
    by_cases hle : d ≤ 9
    · right
      simp [hle]
    · left
      have : pid ∈ killTargets pids termDelay :=
        mem_killTargets pids termDelay pid fun q hq =>
          mem_waitAlive pids termDelay pid q hmem (Or.inr ⟨d, hd, by omega⟩)
      simpa using this

/-- C2 (amended): when the pidof enumeration succeeds, restart_fbcp
terminates with zero live pids of the instances that were in the
process table when it was called and with exactly one freshly spawned
instance, whose argv equals the expected spec [FBCP_CMD] + FBCP_ARGS;
the unamended claim fails when enumeration itself fails (see the
counterexample). -/
theorem C2_restart_with_enumeration_success (table : List Proc)
    (termDelay : Nat → Option Nat) (freshPid : Nat)
    (hfresh : freshPid ∉ table.map Proc.pid) :
    (restart_fbcp table true termDelay freshPid).2 =
        [⟨freshPid, expectedArgv⟩] ∧
      ∀ q ∈ table.map Proc.pid,
        q ∉ (restart_fbcp table true termDelay freshPid).2.map Proc.pid := by
  have hfilter :
      (table.filter fun p =>
        !deadAtEnd (table.map Proc.pid)
            (killTargets (table.map Proc.pid) termDelay) termDelay p.pid) =
        [] := by
    rw [List.filter_eq_nil_iff]
    intro p hp
    have hmem : p.pid ∈ table.map Proc.pid := List.mem_map_of_mem Proc.pid hp
    simp [deadAtEnd_of_mem (table.map Proc.pid) termDelay p.pid hmem]
  have hmain : (restart_fbcp table true termDelay freshPid).2 =
      [⟨freshPid, expectedArgv⟩] := by
    show (table.filter fun p =>
        !deadAtEnd (table.map Proc.pid)
            (killTargets (table.map Proc.pid) termDelay) termDelay p.pid) ++
        [⟨freshPid, expectedArgv⟩] = [⟨freshPid, expectedArgv⟩]
    rw [hfilter]
    rfl
  refine ⟨hmain, ?_⟩
  intro q hq
  rw [hmain]
  intro hmem
  simp only [List.map_cons, List.map_nil, List.mem_singleton] at hmem
  subst hmem
  exact hfresh hq

theorem C2_witness :
    (restart_fbcp [⟨5, expectedArgv⟩] true (fun _ => none) 7).2 =
        [⟨7, expectedArgv⟩] ∧
      5 ∉ (restart_fbcp [⟨5, expectedArgv⟩] true (fun _ => none) 7).2.map
          Proc.pid :=
  ⟨(C2_restart_with_enumeration_success [⟨5, expectedArgv⟩] (fun _ => none) 7
      (by decide)).1,
    (C2_restart_with_enumeration_success [⟨5, expectedArgv⟩] (fun _ => none) 7
        (by decide)).2 5 (by decide)⟩

/-- C2 counterexample: if the running instance with pid 1 exists but
pid enumeration fails (pidof timeout, error, or absence gives
pids = []), restart_fbcp leaves pid 1 alive in the process table next
to the freshly spawned instance, so the claim as stated - zero live
stale pids even when enumeration fails - is false. -/
theorem C2_counterexample :
    1 ∈ (restart_fbcp [⟨1, expectedArgv⟩] false (fun _ => none) 2).2.map
        Proc.pid ∧
      (restart_fbcp [⟨1, expectedArgv⟩] false (fun _ => none) 2).2.map
          Proc.pid =
        [1, 2] := by
  exact ⟨by decide, by rfl⟩

/-- C3: restart_fbcp signals SIGTERM to every enumerated pid, then -
only when the wait loop ran all 10 polls without ever observing an
empty survivor set - SIGKILLs exactly the pids still alive at the
last poll, and only then spawns the fresh instance; when the wait
loop exits early no SIGKILL is ever sent; every pid that ignores
SIGTERM for the whole window receives a SIGKILL before the spawn. -/
theorem C3_sigkill_only_after_full_wait (table : List Proc) (enumOk : Bool)
    (termDelay : Nat → Option Nat) (freshPid : Nat) :
    (restart_fbcp table enumOk termDelay freshPid).1 =
        RestartEvent.stopEarly ::
          ((if enumOk then table.map Proc.pid else []).map
              RestartEvent.sigterm ++
            (killTargets (if enumOk then table.map Proc.pid else [])
                  termDelay).map RestartEvent.sigkill ++
              [RestartEvent.spawn expectedArgv]) ∧
      (killTargets (if enumOk then table.map Proc.pid else []) termDelay ≠
            [] →
          ∀ q, q < 10 →
            waitAlive (if enumOk then table.map Proc.pid else []) termDelay
                q ≠ []) ∧
        (waitBroke (if enumOk then table.map Proc.pid else []) termDelay =
              true →
            ∀ pid,
              RestartEvent.sigkill pid ∉
                (restart_fbcp table enumOk termDelay freshPid).1) ∧
          ∀ pid, termDelay pid = none →
            pid ∈ (if enumOk then table.map Proc.pid else []) →
              RestartEvent.sigkill pid ∈
                (restart_fbcp table enumOk termDelay freshPid).1 := by
  refine ⟨rfl, ?_, ?_, ?_⟩
  · intro hne q hq
    intro hempty
    apply hne
    have hbroke : waitBroke (if enumOk then table.map Proc.pid else [])
        termDelay = true := by
      unfold waitBroke
      rw [List.any_eq_true]
      exact ⟨q, List.mem_range.mpr hq, by simp [hempty]⟩
    unfold killTargets
    rw [if_pos (by simp [hbroke])]
  · intro hbroke pid
    have hkt : killTargets (if enumOk then table.map Proc.pid else [])
        termDelay = [] := by
      unfold killTargets
      rw [if_pos (by simp [hbroke])]
    show RestartEvent.sigkill pid ∉ _
    rw [show (restart_fbcp table enumOk termDelay freshPid).1 =
      RestartEvent.stopEarly ::
        ((if enumOk then table.map Proc.pid else []).map
            RestartEvent.sigterm ++
          (killTargets (if enumOk then table.map Proc.pid else [])
                termDelay).map RestartEvent.sigkill ++
            [RestartEvent.spawn expectedArgv]) from rfl, hkt]
    simp
  · intro pid hd hmem
    have hkt : pid ∈ killTargets (if enumOk then table.map Proc.pid else [])
        termDelay :=
      mem_killTargets _ termDelay pid fun q _ =>
        mem_waitAlive _ termDelay pid q hmem (Or.inl hd)
    show RestartEvent.sigkill pid ∈ _
    rw [show (restart_fbcp table enumOk termDelay freshPid).1 =
      RestartEvent.stopEarly ::
        ((if enumOk then table.map Proc.pid else []).map
            RestartEvent.sigterm ++
          (killTargets (if enumOk then table.map Proc.pid else [])
                termDelay).map RestartEvent.sigkill ++
            [RestartEvent.spawn expectedArgv]) from rfl]
    simp only [List.mem_cons, List.mem_append]
    right
    left
    right
    exact List.mem_map_of_mem RestartEvent.sigkill hkt

theorem C3_witness :
    RestartEvent.sigkill 5 ∈
      (restart_fbcp [⟨5, expectedArgv⟩] true (fun _ => none) 7).1 :=
  (C3_sigkill_only_after_full_wait [⟨5, expectedArgv⟩] true (fun _ => none)
      7).2.2.2 5 rfl (by decide)

theorem supStep_spec (s : SupState) (i : SupInput) :
    supStep s i =
      if s.manage_fbcp = false ∧ i.runningBefore = false ∧
          fbcp_service_attempt_sec ≤ i.now - s.last_fbcp_service_attempt then
        if i.runningAfter then (⟨s.manage_fbcp, 0, i.now⟩, true)
        else if external_start_failure_threshold ≤
            s.external_start_failures + 1 then
          (⟨true, s.external_start_failures + 1, i.now⟩, true)
        else (⟨s.manage_fbcp, s.external_start_failures + 1, i.now⟩, true)
      else (s, false) := rfl

theorem supStep_snd_false (s : SupState) (i : SupInput)
    (h : (supStep s i).2 = false) : (supStep s i).1 = s := by
  rw [supStep_spec] at h ⊢
  split at h
  · split at h
    · simp at h
    · split at h
      · simp at h
      · simp at h
  · next hg => rw [if_neg hg]

theorem supStep_attempt (s : SupState) (i : SupInput)
    (h : (supStep s i).2 = true) :
    (s.manage_fbcp = false ∧ i.runningBefore = false ∧
        fbcp_service_attempt_sec ≤ i.now - s.last_fbcp_service_attempt) ∧
      ((supStep s i).1).last_fbcp_service_attempt = i.now := by
  rw [supStep_spec] at h ⊢
  split at h
  · next hg =>
    refine ⟨hg, ?_⟩
    rw [if_pos hg]
    split
    · rfl
    · split <;> rfl
  · simp at h

theorem supStep_preserves_manage (s : SupState) (i : SupInput)
    (hm : s.manage_fbcp = true) : (supStep s i).1 = s := by
  rw [supStep_spec]
  rw [if_neg (by simp [hm])]

theorem attemptTimes_chain (inputs : List SupInput) (s : SupState) :
    List.Chain' (fun a b => a + fbcp_service_attempt_sec ≤ b)
      (s.last_fbcp_service_attempt :: attemptTimes s inputs) := by
  induction inputs generalizing s with
  | nil => simp [attemptTimes]
  | cons i rest ih =>
    unfold attemptTimes
    cases hatt : (supStep s i).2 with
    | false =>
      simp only [Bool.false_eq_true, if_false, List.nil_append]
      rw [supStep_snd_false s i hatt]
      exact ih s
    | true =>
      simp only [if_true, List.singleton_append]
      obtain ⟨⟨_, _, hle⟩, hlast⟩ := supStep_attempt s i hatt
      rw [List.chain'_cons]
      refine ⟨by omega, ?_⟩
      have hchain := ih (supStep s i).1
      rwa [hlast] at hchain

/-- C5: external-start attempts happen only at spacing of at least
fbcp_service_attempt_sec = 10 seconds; a successful attempt (fbcp
observed running afterwards) resets the consecutive-failure counter
to 0; a failed attempt increments it and flips the mode to
self-managed exactly when the counter reaches the threshold of 6; and
once manage_fbcp is true it remains true for the remainder of any
run. -/
theorem C5_external_manager_failover (s : SupState) (i : SupInput)
    (inputs : List SupInput) :
    List.Chain' (fun a b => a + fbcp_service_attempt_sec ≤ b)
        (s.last_fbcp_service_attempt :: attemptTimes s inputs) ∧
      ((supStep s i).2 = true →
          fbcp_service_attempt_sec ≤ i.now - s.last_fbcp_service_attempt) ∧
        ((supStep s i).2 = true → i.runningAfter = true →
            ((supStep s i).1).external_start_failures = 0) ∧
          ((supStep s i).2 = true → i.runningAfter = false →
              ((supStep s i).1).external_start_failures =
                  s.external_start_failures + 1 ∧
                (((supStep s i).1).manage_fbcp = true ↔
                  external_start_failure_threshold ≤
                    s.external_start_failures + 1)) ∧
            (s.manage_fbcp = true → (supRun s inputs).manage_fbcp = true) := by
  refine ⟨attemptTimes_chain inputs s, ?_, ?_, ?_, ?_⟩
  · intro hatt
    exact (supStep_attempt s i hatt).1.2.2
  · intro hatt hra
    rw [supStep_spec] at hatt ⊢
    split at hatt
    · next hg =>
      rw [if_pos hg, if_pos hra]
    · simp at hatt
  · intro hatt hra
    rw [supStep_spec] at hatt ⊢
    split at hatt
    · next hg =>
      rw [if_pos hg, if_neg (by simp [hra])]
      by_cases hth : external_start_failure_threshold ≤
          s.external_start_failures + 1
      · rw [if_pos hth]
        exact ⟨rfl, by simp [hth]⟩
      · rw [if_neg hth]
        exact ⟨rfl, by simp [hg.1, hth]⟩
    · simp at hatt
  · intro hm
    induction inputs generalizing s with
    | nil => exact hm
    | cons j rest ih =>
      show (supRun (supStep s j).1 rest).manage_fbcp = true
      rw [supStep_preserves_manage s j hm]
      exact ih s hm
  
theorem C5_witness :
    fbcp_service_attempt_sec ≤
        (⟨12, false, false⟩ : SupInput).now -
          (⟨false, 5, 0⟩ : SupState).last_fbcp_service_attempt ∧
      ((supStep ⟨false, 5, 0⟩ ⟨12, false, false⟩).1).external_start_failures =
          (⟨false, 5, 0⟩ : SupState).external_start_failures + 1 ∧
        (((supStep ⟨false, 5, 0⟩ ⟨12, false, false⟩).1).manage_fbcp = true ↔
          external_start_failure_threshold ≤
            (⟨false, 5, 0⟩ : SupState).external_start_failures + 1) :=
  ⟨(C5_external_manager_failover ⟨false, 5, 0⟩ ⟨12, false, false⟩ []).2.1
      (by decide),
    ((C5_external_manager_failover ⟨false, 5, 0⟩ ⟨12, false, false⟩
            []).2.2.2.1 (by decide) rfl).1,
    ((C5_external_manager_failover ⟨false, 5, 0⟩ ⟨12, false, false⟩
            []).2.2.2.1 (by decide) rfl).2⟩

theorem mainLoopRun_none (bodies : List (Option ExcClass))
    (hall : (bodies.all fun b =>
        match b with
        | none => true
        | some e => isSubclass e ExcClass.exception) = true) :
    mainLoopRun bodies = none := by
  induction bodies with
  | nil => rfl
  | cons b rest ih =>
    rw [List.all_cons, Bool.and_eq_true] at hall
    cases b with
    | none => exact ih hall.2
    | some c =>
      have hc : isSubclass c ExcClass.exception = true := hall.1
      have hiter : mainLoopIter (some c) =
          IterOutcome.resume true (1 + POLL_DELAY) := by
        show (if isSubclass c ExcClass.exception = true then
            IterOutcome.resume true (1 + POLL_DELAY)
          else IterOutcome.terminated c) =
          IterOutcome.resume true (1 + POLL_DELAY)
        rw [if_pos hc]
      show (match mainLoopIter (some c) with
        | IterOutcome.resume _ _ => mainLoopRun rest
        | IterOutcome.terminated e => some e) = none
      rw [hiter]
      exact ih hall.2

/-- C6: every exception of Python's Exception class raised by the
main-loop body is caught at the loop boundary, logged with its
traceback and followed by a 1-second cooldown sleep before the next
iteration; a run whose bodies only ever raise Exception-class errors
never terminates the loop; and the loop terminates on an exception
iff it is not an Exception instance (SystemExit being the one the
signal handlers raise). -/
theorem C6_loop_survives_exceptions (c : ExcClass)
    (bodies : List (Option ExcClass))
    (hc : isSubclass c ExcClass.exception = true)
    (hall : (bodies.all fun b =>
        match b with
        | none => true
        | some e => isSubclass e ExcClass.exception) = true) :
    mainLoopIter (some c) = IterOutcome.resume true (1 + POLL_DELAY) ∧
      mainLoopRun bodies = none ∧
        mainLoopIter (some ExcClass.systemExit) =
            IterOutcome.terminated ExcClass.systemExit ∧
          ∀ e : ExcClass,
            mainLoopIter (some e) = IterOutcome.terminated e ↔
              isSubclass e ExcClass.exception = false := by
  refine ⟨?_, mainLoopRun_none bodies hall, by decide, ?_⟩
  · show (if isSubclass c ExcClass.exception = true then
        IterOutcome.resume true (1 + POLL_DELAY)
      else IterOutcome.terminated c) =
      IterOutcome.resume true (1 + POLL_DELAY)
    rw [if_pos hc]
  · intro e
    unfold mainLoopIter
    cases he : isSubclass e ExcClass.exception with
    | false => simp [he]
    | true => simp [he]

theorem C6_witness :
    mainLoopIter (some ExcClass.runtimeError) =
        IterOutcome.resume true (1 + POLL_DELAY) ∧
      mainLoopRun [some ExcClass.timeoutExpired, none,
          some ExcClass.fileNotFoundError] =
        none :=
  ⟨(C6_loop_survives_exceptions ExcClass.runtimeError
        [some ExcClass.timeoutExpired, none, some ExcClass.fileNotFoundError]
        (by decide) (by decide)).1,
    (C6_loop_survives_exceptions ExcClass.runtimeError
        [some ExcClass.timeoutExpired, none, some ExcClass.fileNotFoundError]
        (by decide) (by decide)).2.1⟩

/-- C7: whenever at least one per-connector status file exists,
hdmi_connected returns true iff some such file reads the literal
status connected and it never invokes the tvservice utility; only
when zero status files exist does it invoke tvservice, returning true
iff the utility exits 0 with an output file of at least 128 bytes,
and returning false on a timeout with no fallback. -/
theorem C7_hdmi_backend_selection (sys : DrmSys) :
    (sys.statusFiles ≠ [] →
        ((hdmi_connected sys).1 = true ↔
            ∃ f ∈ sys.statusFiles, ∃ c, f.2 = some c ∧
              pyStrip c = "connected".toList) ∧
          ProbeEvent.runTvservice ∉ (hdmi_connected sys).2) ∧
      (sys.statusFiles = [] →
          ProbeEvent.runTvservice ∈ (hdmi_connected sys).2 ∧
            ((hdmi_connected sys).1 = true ↔
                ∃ rc size, sys.tvservice = TvOutcome.ran rc size ∧
                  rc = 0 ∧ 128 ≤ size) ∧
              (sys.tvservice = TvOutcome.timeout →
                (hdmi_connected sys).1 = false)) := by
  constructor
  · intro hne
    unfold hdmi_connected
    rw [if_pos hne]
    refine ⟨?_, by simp⟩
    show _kms_edid_present sys = true ↔ _
    unfold _kms_edid_present
    rw [List.any_eq_true]
    constructor
    · rintro ⟨f, hf, hmatch⟩
      cases hc : f.2 with
      | none => rw [hc] at hmatch; simp at hmatch
      | some c =>
        rw [hc] at hmatch
        exact ⟨f, hf, c, hc, by simpa using hmatch⟩
    · rintro ⟨f, hf, c, hc, hstrip⟩
      refine ⟨f, hf, ?_⟩
      rw [hc]
      simpa using hstrip
  · intro heq
    unfold hdmi_connected
    rw [if_neg (by simp [heq])]
    refine ⟨by simp [_legacy_edid_present], ?_, ?_⟩
    · show (_legacy_edid_present sys).1 = true ↔ _
      unfold _legacy_edid_present
      cases htv : sys.tvservice with
      | timeout => simp [htv]
      | notFound => simp [htv]
      | ran rc size =>
        simp only [htv]
        rw [Bool.and_eq_true, beq_iff_eq, decide_eq_true_eq]
        constructor
        · rintro ⟨h0, hsz⟩
          exact ⟨rc, size, rfl, h0, hsz⟩
        · rintro ⟨rc2, sz2, heq2, h0, hsz⟩
          injection heq2 with h1 h2
          subst h1
          subst h2
          exact ⟨h0, hsz⟩
    · intro htv
      show (_legacy_edid_present sys).1 = false
      unfold _legacy_edid_present
      rw [htv]

theorem C7_witness :
    ProbeEvent.runTvservice ∉
        (hdmi_connected ⟨[("card1-HDMI-A-1/status", some "connected")],
            TvOutcome.timeout⟩).2 ∧
      ProbeEvent.runTvservice ∈ (hdmi_connected ⟨[], TvOutcome.ran 0 200⟩).2 ∧
        (hdmi_connected ⟨[], TvOutcome.timeout⟩).1 = false :=
  ⟨((C7_hdmi_backend_selection ⟨[("card1-HDMI-A-1/status", some "connected")],
          TvOutcome.timeout⟩).1 (by decide)).2,
    ((C7_hdmi_backend_selection ⟨[], TvOutcome.ran 0 200⟩).2 rfl).1,
    ((C7_hdmi_backend_selection ⟨[], TvOutcome.timeout⟩).2 rfl).2.2 rfl⟩

/-- C8 counterexample: with the lock held by a first instance whose
recorded pid content is "123", launching a second instance exits with
status 0 but changes the lock file: opening it in "w" mode truncates
the recorded pid content to the empty string, so the claim that a
second instance produces no side effects - including to the lock
file's recorded pid content - is false. -/
theorem C8_counterexample :
    (second_instance ⟨"123", true⟩ 456).2 = some 0 ∧
      (second_instance ⟨"123", true⟩ 456).1.content = "" ∧
        ¬(second_instance ⟨"123", true⟩ 456).1.content = "123" :=
  ⟨rfl, rfl, by decide⟩

/-- C8 (amended): a second daemon instance launched while the lock is
held exits immediately with status 0 and never records its own pid,
but as a side effect the open in write mode truncates the lock file's
recorded content to the empty string. -/
theorem C8_second_instance_exit_status (f : LockFile) (pid : Nat)
    (h : f.heldByOther = true) :
    (second_instance f pid).2 = some 0 ∧
      (second_instance f pid).1.content = "" ∧
        (second_instance f pid).1.heldByOther = f.heldByOther := by
  unfold second_instance _acquire_lock
  simp [h]

theorem C8_witness :
    (second_instance ⟨"7", true⟩ 456).2 = some 0 ∧
      (second_instance ⟨"7", true⟩ 456).1.content = "" ∧
        (second_instance ⟨"7", true⟩ 456).1.heldByOther =
          (⟨"7", true⟩ : LockFile).heldByOther :=
  C8_second_instance_exit_status ⟨"7", true⟩ 456 rfl

end GameBird
